import Mathlib

/-!
# Verification of the temporal-json interaction codec

Shallow embedding of `src/crates/temporal-json/src/lib.rs`: the
`TemporalInteraction` data model, the version-"A" `Encoder` (encode/decode)
and the `KeysToTemporalAction` field-code registry, together with theorems
settling the specification claims about them.

Rust `String`/`&str` values are modelled as `List Char`; Rust's
`str::split_once` and `str::split` (single-character patterns) are modelled
by `split_once` and `split_all`; `Vec::join` by `join_with`.  `anyhow`
string errors are modelled by the inductive `DecodeError`, one constructor
per distinct error site of the source.
-/

namespace TemporalJson

/-- Rust strings, modelled as lists of characters. -/
abbrev Str : Type := List Char

/-- `serde_json::Value` is opaque to the codec; it is modelled by its rendered
text (the only operation the codec applies is `to_string`, here `render`). -/
structure JsonValue where
  render : Str
deriving DecidableEq

/-- `ExecuteTemporalWorkflow` struct (field `namespace` is `namespace_` here
because `namespace` is a Lean keyword). -/
structure ExecuteTemporalWorkflow where
  namespace_ : Str
  task_queue : Str
  workflow_id : Str
  workflow_type : Str
  args : Option (List JsonValue)
deriving DecidableEq

/-- `SignalTemporal` struct. -/
structure SignalTemporal where
  namespace_ : Str
  task_queue : Str
  workflow_id : Option Str
  run_id : Option Str
  signal_name : Str
  input : Option (List JsonValue)
  identity : Option Str
  request_id : Option Str
  control : Option Str
deriving DecidableEq

/-- `QueryTemporal` struct. -/
structure QueryTemporal where
  namespace_ : Str
  task_queue : Str
  workflow_id : Option Str
  run_id : Option Str
  query_type : Str
  query_args : Option (List JsonValue)
deriving DecidableEq

/-- The `TemporalInteraction` tagged union. -/
inductive TemporalInteraction
  | Execute (action : ExecuteTemporalWorkflow)
  | Signal (action : SignalTemporal)
  | Query (action : QueryTemporal)
deriving DecidableEq

/-- `TemporalInteraction::to_type_string` (strum `Display` of the
discriminant: the variant name). -/
def TemporalInteraction.to_type_string : TemporalInteraction → Str
  | .Execute _ => "Execute".data
  | .Signal _ => "Signal".data
  | .Query _ => "Query".data

/-- `TemporalInteraction::workflow_id`: absence normalised to the empty
string via `map_or("".into(), clone)`. -/
def TemporalInteraction.workflow_id : TemporalInteraction → Str
  | .Execute action => action.workflow_id
  | .Signal action => action.workflow_id.getD []
  | .Query action => action.workflow_id.getD []

/-- `TemporalInteraction::task_queue`. -/
def TemporalInteraction.task_queue : TemporalInteraction → Str
  | .Execute action => action.task_queue
  | .Signal action => action.task_queue
  | .Query action => action.task_queue

/-- `TemporalInteraction::namespace`. -/
def TemporalInteraction.namespace_ : TemporalInteraction → Str
  | .Execute action => action.namespace_
  | .Signal action => action.namespace_
  | .Query action => action.namespace_

/-- `TemporalInteraction::add_data_args`: replaces the variant-specific
argument field (`args` / `input` / `query_args`) by struct update. -/
def TemporalInteraction.add_data_args :
    TemporalInteraction → Option (List JsonValue) → TemporalInteraction
  | .Execute exec, args => .Execute { exec with args := args }
  | .Signal signal, args => .Signal { signal with input := args }
  | .Query query, args => .Query { query with query_args := args }

/-- `SignalTemporal::run_id` accessor method: absence normalised to the
empty string (named `run_id_str` here to avoid clashing with the field). -/
def SignalTemporal.run_id_str (s : SignalTemporal) : Str :=
  s.run_id.getD []

/-- `QueryTemporal::run_id` accessor method. -/
def QueryTemporal.run_id_str (q : QueryTemporal) : Str :=
  q.run_id.getD []

/-- `QueryTemporal::query_args` accessor method: rendered text of the first
argument, or the empty string. -/
def QueryTemporal.query_args_str (q : QueryTemporal) : Str :=
  match q.query_args with
  | none => []
  | some l =>
    match l.head? with
    | none => []
    | some arg => arg.render

/-- `SLACK_INFO_DELIMITER` (","), the pair delimiter. -/
def SLACK_INFO_DELIMITER : Char := ','

/-- `TEMPORAL_KEY_DELIMITER` (":"), the key/value delimiter. -/
def TEMPORAL_KEY_DELIMITER : Char := ':'

/-- `ENCODER_SECTION_DELIMITER` ("~"), the section delimiter. -/
def ENCODER_SECTION_DELIMITER : Char := '~'

/-- The `KeysToTemporalAction` field-code registry. -/
inductive KeysToTemporalAction
  | E | W | N | T | Y | R | S | Q | U
deriving DecidableEq

/-- strum `EnumIter` for `KeysToTemporalAction`: declaration order. -/
def KeysToTemporalAction.iter : List KeysToTemporalAction :=
  [.E, .W, .N, .T, .Y, .R, .S, .Q, .U]

/-- strum `Display` for `KeysToTemporalAction`: the variant name. -/
def KeysToTemporalAction.toStr : KeysToTemporalAction → Str
  | .E => ['E']
  | .W => ['W']
  | .N => ['N']
  | .T => ['T']
  | .Y => ['Y']
  | .R => ['R']
  | .S => ['S']
  | .Q => ['Q']
  | .U => ['U']

/-- strum `EnumString` (`from_str`) for `KeysToTemporalAction`. -/
def KeysToTemporalAction.from_str (s : Str) : Option KeysToTemporalAction :=
  if s = ['E'] then some .E
  else if s = ['W'] then some .W
  else if s = ['N'] then some .N
  else if s = ['T'] then some .T
  else if s = ['Y'] then some .Y
  else if s = ['R'] then some .R
  else if s = ['S'] then some .S
  else if s = ['Q'] then some .Q
  else if s = ['U'] then some .U
  else none

/-- `KeysToTemporalAction::to_kv`: `key + ":" + value`. -/
def KeysToTemporalAction.to_kv (k : KeysToTemporalAction) (value : Str) : Str :=
  k.toStr ++ TEMPORAL_KEY_DELIMITER :: value

/-- `TemporalInteractionDiscriminants` (strum `EnumDiscriminants`). -/
inductive TemporalInteractionDiscriminants
  | Execute | Signal | Query
deriving DecidableEq

/-- strum `EnumString` (`from_str`) for the discriminants. -/
def TemporalInteractionDiscriminants.from_str (s : Str) :
    Option TemporalInteractionDiscriminants :=
  if s = "Execute".data then some .Execute
  else if s = "Signal".data then some .Signal
  else if s = "Query".data then some .Query
  else none

/-- The `Encoder` version registry (only version `A` exists). -/
inductive Encoder
  | A
deriving DecidableEq

/-- strum `Display` for `Encoder`. -/
def Encoder.toStr : Encoder → Str
  | .A => ['A']

/-- strum `EnumString` (`from_str`) for `Encoder`. -/
def Encoder.from_str (s : Str) : Option Encoder :=
  if s = ['A'] then some .A else none

/-- Rust `str::split_once` with a single-character pattern: splits at the
first occurrence of `d`, or `none` when `d` does not occur. -/
def split_once (d : Char) : Str → Option (Str × Str)
  | [] => none
  | c :: rest =>
    if c = d then some ([], rest)
    else
      match split_once d rest with
      | none => none
      | some (l, r) => some (c :: l, r)

/-- Rust `str::split` with a single-character pattern: the (always
non-empty) list of substrings between occurrences of `d`. -/
def split_all (d : Char) : Str → List Str
  | [] => [[]]
  | c :: rest =>
    if c = d then [] :: split_all d rest
    else
      match split_all d rest with
      | [] => [[c]]
      | l :: ls => (c :: l) :: ls

/-- Rust `Vec::join` with a single-character separator. -/
def join_with (sep : Char) : List Str → Str
  | [] => []
  | [x] => x
  | x :: xs => x ++ sep :: join_with sep xs

/-- Decode-side errors, one constructor per distinct `anyhow` error site of
the source.  `missingKey` carries the key whose debug name the source
interpolates into its message. -/
inductive DecodeError
  | malformedVersion
  | invalidVersion
  | malformedPair
  | unknownKey
  | missingEventKind
  | unknownEventKind
  | missingKey (k : KeysToTemporalAction)
deriving DecidableEq

/-- `Encoder::encode`.  The version-`A` strategy pushes the event-kind pair
first, then iterates the registry in declaration order, keeping the codes
relevant to the variant.  The source's `Query` arm evaluates each pair
inside a `match` expression whose result is discarded (never pushed onto
`kv_pairs`), so for `Query` only the event-kind pair survives; that
discarded computation is kept here as `_discarded` for faithfulness. -/
def Encoder.encode (self : Encoder) (temporal_interaction : TemporalInteraction) : Str :=
  match self with
  | .A =>
    let ns := temporal_interaction.namespace_
    let tq := temporal_interaction.task_queue
    let wid := temporal_interaction.workflow_id
    let head := KeysToTemporalAction.E.to_kv temporal_interaction.to_type_string
    let kv_pairs : List Str :=
      match temporal_interaction with
      | .Execute action =>
        head :: KeysToTemporalAction.iter.filterMap (fun key =>
          match key with
          | .W => some (key.to_kv wid)
          | .N => some (key.to_kv ns)
          | .T => some (key.to_kv tq)
          | .Y => some (key.to_kv action.workflow_type)
          | _ => none)
      | .Signal action =>
        head :: KeysToTemporalAction.iter.filterMap (fun key =>
          match key with
          | .W => some (key.to_kv wid)
          | .N => some (key.to_kv ns)
          | .T => some (key.to_kv tq)
          | .R => some (key.to_kv action.run_id_str)
          | .S => some (key.to_kv action.signal_name)
          | _ => none)
      | .Query action =>
        let _discarded := KeysToTemporalAction.iter.filterMap (fun key =>
          match key with
          | .W => some (key.to_kv wid)
          | .N => some (key.to_kv ns)
          | .T => some (key.to_kv tq)
          | .Q => some (key.to_kv action.query_type)
          | .U => some (key.to_kv action.query_args_str)
          | _ => none)
        [head]
    self.toStr ++ ENCODER_SECTION_DELIMITER :: join_with SLACK_INFO_DELIMITER kv_pairs

/-- `Encoder::from_encoded_str`: split off the version tag at the first
section delimiter and resolve it. -/
def Encoder.from_encoded_str (encoded : Str) : Except DecodeError (Encoder × Str) :=
  match split_once ENCODER_SECTION_DELIMITER encoded with
  | none => .error .malformedVersion
  | some (version_str, encoded_without_version) =>
    match Encoder.from_str version_str with
    | none => .error .invalidVersion
    | some version => .ok (version, encoded_without_version)

/-- The working map from resolved field key to raw value, modelled as an
association list with last-write-wins insertion (the only operations the
source performs on its `HashMap` are keyed insert and keyed remove, both
order-independent). -/
abbrev EncoderMap := List (KeysToTemporalAction × Str)

/-- `HashMap::insert`: overwrite the existing binding or append. -/
def mapInsert (k : KeysToTemporalAction) (v : Str) : EncoderMap → EncoderMap
  | [] => [(k, v)]
  | (k0, v0) :: rest =>
    if k0 = k then (k, v) :: rest else (k0, v0) :: mapInsert k v rest

/-- `HashMap::remove`: the removed value (if any) and the remaining map. -/
def mapRemove (k : KeysToTemporalAction) : EncoderMap → Option Str × EncoderMap
  | [] => (none, [])
  | (k0, v0) :: rest =>
    if k0 = k then (some v0, rest)
    else
      let (r, m) := mapRemove k rest
      (r, (k0, v0) :: m)

/-- `KeysToTemporalAction::get_value`: remove the key from the map, failing
with the missing-key error when it is not bound. -/
def KeysToTemporalAction.get_value (k : KeysToTemporalAction)
    (encoder_map : EncoderMap) : Except DecodeError (Str × EncoderMap) :=
  match mapRemove k encoder_map with
  | (none, _) => .error (.missingKey k)
  | (some v, m) => .ok (v, m)

/-- Decode step: split each comma-separated token once at the key/value
delimiter; a token with no delimiter is a malformed pair. -/
def parse_kv_pairs (tokens : List Str) : Except DecodeError (List (Str × Str)) :=
  tokens.mapM (fun kv_pair =>
    match split_once TEMPORAL_KEY_DELIMITER kv_pair with
    | none => Except.error .malformedPair
    | some p => Except.ok p)

/-- Decode step: resolve each key through the registry and build the
working map (duplicates overwrite, last write wins). -/
def build_encoder_map (kv_pairs : List (Str × Str)) : Except DecodeError EncoderMap :=
  kv_pairs.foldlM (fun m kv =>
    match KeysToTemporalAction.from_str kv.1 with
    | none => Except.error .unknownKey
    | some k => Except.ok (mapInsert k kv.2 m)) []

/-- Decode step: read the event kind, then `namespace` and `task_queue`
(required for every variant), then branch on the kind: required fields via
`get_value` (error when absent), optional fields via `.ok()`-style removal
(absence becomes `none`); argument-carrying fields are always `none`, and
the `Signal` fields the source takes from `Default::default()`
(`identity`, `request_id`, `control`) are `none`. -/
def decodeA_from_map (m0 : EncoderMap) : Except DecodeError TemporalInteraction :=
  match mapRemove .E m0 with
  | (none, _) => .error .missingEventKind
  | (some temporal_event_type_str, m1) =>
    match TemporalInteractionDiscriminants.from_str temporal_event_type_str with
    | none => .error .unknownEventKind
    | some temporal_event_type =>
      match KeysToTemporalAction.get_value .N m1 with
      | .error e => .error e
      | .ok (ns, m2) =>
        match KeysToTemporalAction.get_value .T m2 with
        | .error e => .error e
        | .ok (tq, m3) =>
          match temporal_event_type with
          | .Execute =>
            match KeysToTemporalAction.get_value .W m3 with
            | .error e => .error e
            | .ok (wid, m4) =>
              match KeysToTemporalAction.get_value .Y m4 with
              | .error e => .error e
              | .ok (wtype, _m5) =>
                .ok (.Execute { namespace_ := ns, task_queue := tq,
                                workflow_id := wid, workflow_type := wtype,
                                args := none })
          | .Signal =>
            let (wopt, m4) := mapRemove .W m3
            let (ropt, m5) := mapRemove .R m4
            match KeysToTemporalAction.get_value .S m5 with
            | .error e => .error e
            | .ok (sname, _m6) =>
              .ok (.Signal { namespace_ := ns, task_queue := tq,
                             workflow_id := wopt, run_id := ropt,
                             signal_name := sname, input := none,
                             identity := none, request_id := none,
                             control := none })
          | .Query =>
            let (wopt, m4) := mapRemove .W m3
            let (ropt, m5) := mapRemove .R m4
            match KeysToTemporalAction.get_value .Q m5 with
            | .error e => .error e
            | .ok (qtype, _m6) =>
              .ok (.Query { namespace_ := ns, task_queue := tq,
                            workflow_id := wopt, run_id := ropt,
                            query_type := qtype, query_args := none })

/-- Decode, after tokenisation: parse the key:value tokens, build the map,
extract the fields. -/
def decode_tokens_A (tokens : List Str) : Except DecodeError TemporalInteraction :=
  match parse_kv_pairs tokens with
  | .error e => .error e
  | .ok kv_pairs =>
    match build_encoder_map kv_pairs with
    | .error e => .error e
    | .ok encoder_map => decodeA_from_map encoder_map

/-- Decode, after the user-data section has been stripped: split the
routing payload on the pair delimiter. -/
def decode_payload_A (payload : Str) : Except DecodeError TemporalInteraction :=
  decode_tokens_A (split_all SLACK_INFO_DELIMITER payload)

/-- The version-`A` strategy of `Encoder::decode`: strip optional trailing
user data at the next section delimiter, then parse the routing payload. -/
def decode_version_A (encoded_str_without_version : Str) :
    Except DecodeError TemporalInteraction :=
  let temporal_encoded_str :=
    match split_once ENCODER_SECTION_DELIMITER encoded_str_without_version with
    | none => encoded_str_without_version
    | some (temporal_str, _user_str) => temporal_str
  decode_payload_A temporal_encoded_str

/-- `Encoder::decode`: extract and dispatch on the version tag. -/
def Encoder.decode (encoded_str : Str) : Except DecodeError TemporalInteraction :=
  match Encoder.from_encoded_str encoded_str with
  | .error e => .error e
  | .ok (encoder_version, encoded_str_without_version) =>
    match encoder_version with
    | .A => decode_version_A encoded_str_without_version

/-- A key:value wire token. -/
def kv (k v : Str) : Str :=
  k ++ TEMPORAL_KEY_DELIMITER :: v

/-- The caller-enforced alphabet constraint of the spec: a value contains
none of the three delimiter characters. -/
def delimFree (s : Str) : Prop :=
  SLACK_INFO_DELIMITER ∉ s ∧ TEMPORAL_KEY_DELIMITER ∉ s ∧
    ENCODER_SECTION_DELIMITER ∉ s

instance (s : Str) : Decidable (delimFree s) := by
  unfold delimFree; infer_instance

/-! ## Parsing infrastructure lemmas -/

theorem split_once_not_mem (d : Char) : ∀ s : Str, d ∉ s → split_once d s = none := by
  intro s
  induction s with
  | nil => intro _; rfl
  | cons c rest ih =>
    intro h
    rw [List.mem_cons, not_or] at h
    obtain ⟨h1, h2⟩ := h
    have hcd : ¬ c = d := fun hc => h1 hc.symm
    simp [split_once, hcd, ih h2]

theorem split_once_append (d : Char) (ys : Str) :
    ∀ xs : Str, d ∉ xs → split_once d (xs ++ d :: ys) = some (xs, ys) := by
  intro xs
  induction xs with
  | nil => intro _; simp [split_once]
  | cons x rest ih =>
    intro h
    rw [List.mem_cons, not_or] at h
    obtain ⟨h1, h2⟩ := h
    have hxd : ¬ x = d := fun hx => h1 hx.symm
    simp [split_once, hxd, ih h2]

theorem split_all_not_mem (d : Char) : ∀ s : Str, d ∉ s → split_all d s = [s] := by
  intro s
  induction s with
  | nil => intro _; rfl
  | cons c rest ih =>
    intro h
    rw [List.mem_cons, not_or] at h
    obtain ⟨h1, h2⟩ := h
    have hcd : ¬ c = d := fun hc => h1 hc.symm
    simp [split_all, hcd, ih h2]

theorem split_all_append (d : Char) (ys : Str) :
    ∀ xs : Str, d ∉ xs → split_all d (xs ++ d :: ys) = xs :: split_all d ys := by
  intro xs
  induction xs with
  | nil => intro _; simp [split_all]
  | cons x rest ih =>
    intro h
    rw [List.mem_cons, not_or] at h
    obtain ⟨h1, h2⟩ := h
    have hxd : ¬ x = d := fun hx => h1 hx.symm
    simp [split_all, hxd, ih h2]

theorem not_mem_join_with {c d : Char} (hcd : c ≠ d) :
    ∀ tokens : List Str, (∀ s ∈ tokens, c ∉ s) →
      c ∉ join_with d tokens := by
  intro tokens
  induction tokens with
  | nil => intro _; simp [join_with]
  | cons x xs ih =>
    intro h
    cases xs with
    | nil =>
      simpa [join_with] using h x (List.mem_cons_self x [])
    | cons y ys =>
      intro hmem
      rw [show join_with d (x :: y :: ys) = x ++ d :: join_with d (y :: ys) from rfl,
        List.mem_append, List.mem_cons] at hmem
      rcases hmem with hx | hd | hrest
      · exact h x (List.mem_cons_self x (y :: ys)) hx
      · exact hcd hd
      · exact ih (fun s hs => h s (List.mem_cons_of_mem x hs)) hrest

theorem split_all_join_with (d : Char) :
    ∀ tokens : List Str, tokens ≠ [] → (∀ s ∈ tokens, d ∉ s) →
      split_all d (join_with d tokens) = tokens := by
  intro tokens
  induction tokens with
  | nil => intro hne _; exact absurd rfl hne
  | cons x xs ih =>
    intro _ h
    cases xs with
    | nil =>
      rw [show join_with d [x] = x from rfl]
      exact split_all_not_mem d x (h x (List.mem_cons_self x []))
    | cons y ys =>
      rw [show join_with d (x :: y :: ys) = x ++ d :: join_with d (y :: ys) from rfl,
        split_all_append d _ x (h x (List.mem_cons_self x (y :: ys))),
        ih (by simp) (fun s hs => h s (List.mem_cons_of_mem x hs))]

theorem not_mem_kv {c : Char} {k v : Str} (hck : c ∉ k) (hcv : c ∉ v)
    (hcd : c ≠ TEMPORAL_KEY_DELIMITER) : c ∉ kv k v := by
  intro hmem
  rw [kv, List.mem_append, List.mem_cons] at hmem
  rcases hmem with h | h | h
  · exact hck h
  · exact hcd h
  · exact hcv h

theorem kv_delims {k v : Str} (hk : delimFree k) (hv : delimFree v) :
    SLACK_INFO_DELIMITER ∉ kv k v ∧ ENCODER_SECTION_DELIMITER ∉ kv k v :=
  ⟨not_mem_kv hk.1 hv.1 (by decide), not_mem_kv hk.2.2 hv.2.2 (by decide)⟩

/-- Master decoding lemma: a version-`A` string assembled from comma- and
tilde-free tokens decodes exactly as the token-level decoder does. -/
theorem decode_A_join (tokens : List Str) (hne : tokens ≠ [])
    (h : ∀ s ∈ tokens, SLACK_INFO_DELIMITER ∉ s ∧ ENCODER_SECTION_DELIMITER ∉ s) :
    Encoder.decode ('A' :: ENCODER_SECTION_DELIMITER ::
      join_with SLACK_INFO_DELIMITER tokens) = decode_tokens_A tokens := by
  have h1 : Encoder.from_encoded_str ('A' :: ENCODER_SECTION_DELIMITER ::
      join_with SLACK_INFO_DELIMITER tokens) =
      .ok (.A, join_with SLACK_INFO_DELIMITER tokens) := rfl
  have htil : ENCODER_SECTION_DELIMITER ∉ join_with SLACK_INFO_DELIMITER tokens :=
    not_mem_join_with (by decide) tokens (fun s hs => (h s hs).2)
  have h2 : split_once ENCODER_SECTION_DELIMITER
      (join_with SLACK_INFO_DELIMITER tokens) = none :=
    split_once_not_mem _ _ htil
  have h3 : split_all SLACK_INFO_DELIMITER
      (join_with SLACK_INFO_DELIMITER tokens) = tokens :=
    split_all_join_with _ tokens hne (fun s hs => (h s hs).1)
  simp [Encoder.decode, h1, decode_version_A, h2, decode_payload_A, h3]

/-! ## Claim theorems -/

/-- Claim C1: the round-trip property `decode (encode v c) = ok c` FAILS on
the code: for a Query command with its argument field absent, the encoder's
Query arm discards every computed pair, so the encoded string is exactly
`A~E:Query` and decoding it fails with the missing-required-field error for
the namespace key, instead of returning the command. -/
theorem claim_C1_roundtrip_fails_on_query :
    Encoder.encode .A (.Query { namespace_ := "my-namespace".data,
                                task_queue := "my-taskqueue".data,
                                workflow_id := none, run_id := none,
                                query_type := "get_state".data,
                                query_args := none }) = "A~E:Query".data ∧
    Encoder.decode (Encoder.encode .A
      (.Query { namespace_ := "my-namespace".data,
                task_queue := "my-taskqueue".data,
                workflow_id := none, run_id := none,
                query_type := "get_state".data,
                query_args := none })) =
      .error (.missingKey .N) :=
  ⟨rfl, rfl⟩

/-- Claim C2: the claimed version-A wire grammar FAILS for the Query
variant: the encoded string for a concrete Query command is exactly
`A~E:Query` and contains none of the claimed `N:`, `T:`, `Q:` pairs
(the source's Query arm never pushes them onto the pair list). -/
theorem claim_C2_query_encode_emits_no_field_pairs :
    Encoder.encode .A (.Query { namespace_ := "prod-ns".data,
                                task_queue := "prod-queue".data,
                                workflow_id := some "wf-77".data,
                                run_id := some "run-77".data,
                                query_type := "status".data,
                                query_args := none }) = "A~E:Query".data ∧
    ¬ "N:".data <:+: "A~E:Query".data ∧
    ¬ "T:".data <:+: "A~E:Query".data ∧
    ¬ "Q:".data <:+: "A~E:Query".data :=
  ⟨rfl, by decide, by decide, by decide⟩

/-- Claim C3: encoding the concrete Signal command of the spec scenario
yields exactly the documented string, and decoding that exact string
reproduces the original command with `input` absent. -/
theorem claim_C3_signal_concrete_scenario :
    Encoder.encode .A (.Signal { namespace_ := "my-namespace".data,
                                 task_queue := "my-taskqueue".data,
                                 workflow_id := some "some-workflow-id".data,
                                 run_id := some "some-run-id".data,
                                 signal_name := "my_signal_name".data,
                                 input := none, identity := none,
                                 request_id := none, control := none }) =
      "A~E:Signal,W:some-workflow-id,N:my-namespace,T:my-taskqueue,R:some-run-id,S:my_signal_name".data ∧
    Encoder.decode
      "A~E:Signal,W:some-workflow-id,N:my-namespace,T:my-taskqueue,R:some-run-id,S:my_signal_name".data =
      .ok (.Signal { namespace_ := "my-namespace".data,
                     task_queue := "my-taskqueue".data,
                     workflow_id := some "some-workflow-id".data,
                     run_id := some "some-run-id".data,
                     signal_name := "my_signal_name".data,
                     input := none, identity := none,
                     request_id := none, control := none }) :=
  ⟨rfl, rfl⟩

/-- Claim C4: `encode` is deterministic: equal inputs give byte-identical
output, and the field order is stable — for each variant the output is an
explicit function of the command's fields with the pairs in the fixed
registry order (no map iteration is involved: the emission order is the
declaration-order list `KeysToTemporalAction.iter`). -/
theorem claim_C4_encode_deterministic :
    (∀ (v : Encoder) (c c' : TemporalInteraction),
      c = c' → Encoder.encode v c = Encoder.encode v c') ∧
    (∀ a : SignalTemporal, Encoder.encode .A (.Signal a) =
      'A' :: ENCODER_SECTION_DELIMITER :: join_with SLACK_INFO_DELIMITER
        [kv ['E'] "Signal".data, kv ['W'] (a.workflow_id.getD []),
          kv ['N'] a.namespace_, kv ['T'] a.task_queue,
          kv ['R'] a.run_id_str, kv ['S'] a.signal_name]) ∧
    (∀ a : ExecuteTemporalWorkflow, Encoder.encode .A (.Execute a) =
      'A' :: ENCODER_SECTION_DELIMITER :: join_with SLACK_INFO_DELIMITER
        [kv ['E'] "Execute".data, kv ['W'] a.workflow_id,
          kv ['N'] a.namespace_, kv ['T'] a.task_queue,
          kv ['Y'] a.workflow_type]) ∧
    (∀ a : QueryTemporal, Encoder.encode .A (.Query a) =
      'A' :: ENCODER_SECTION_DELIMITER :: join_with SLACK_INFO_DELIMITER
        [kv ['E'] "Query".data]) :=
  ⟨fun _ _ _ h => h ▸ rfl, fun _ => rfl, fun _ => rfl, fun _ => rfl⟩

/-- Witness for claim C4: the determinism conjunct applied at a concrete
pair of equal commands, written differently on the two sides. -/
theorem claim_C4_encode_deterministic_witness :
    Encoder.encode .A (.Signal { namespace_ := "ns".data,
                                 task_queue := "tq".data,
                                 workflow_id := none, run_id := none,
                                 signal_name := "sig".data, input := none,
                                 identity := none, request_id := none,
                                 control := none }) =
    Encoder.encode .A ((TemporalInteraction.Signal
      { namespace_ := "ns".data, task_queue := "tq".data,
        workflow_id := none, run_id := none, signal_name := "sig".data,
        input := none, identity := none, request_id := none,
        control := none }).add_data_args none) :=
  claim_C4_encode_deterministic.1 .A _ _ (by decide)

/-- Claim C5: on well-formed version-A strings (canonical pair order,
delimiter-free values, per the spec's caller-enforced alphabet), removing
the `N:` pair makes decode fail with the missing-key error for the
namespace key `N`; likewise `T:` (task queue), and the variant-specific
required pairs `S:` (Signal), `Y:` (Execute) and `Q:` (Query).  Decode
returns the error, never a command with a defaulted required field. -/
theorem claim_C5_required_field_enforcement
    (w n t r s y q : Str) (hw : delimFree w) (hn : delimFree n)
    (ht : delimFree t) (hr : delimFree r) (hs : delimFree s)
    (hy : delimFree y) (hq : delimFree q) :
    (Encoder.decode ('A' :: ENCODER_SECTION_DELIMITER ::
        join_with SLACK_INFO_DELIMITER
          [kv ['E'] "Signal".data, kv ['W'] w, kv ['T'] t, kv ['R'] r,
            kv ['S'] s]) = .error (.missingKey .N)) ∧
    (Encoder.decode ('A' :: ENCODER_SECTION_DELIMITER ::
        join_with SLACK_INFO_DELIMITER
          [kv ['E'] "Signal".data, kv ['W'] w, kv ['N'] n, kv ['R'] r,
            kv ['S'] s]) = .error (.missingKey .T)) ∧
    (Encoder.decode ('A' :: ENCODER_SECTION_DELIMITER ::
        join_with SLACK_INFO_DELIMITER
          [kv ['E'] "Signal".data, kv ['W'] w, kv ['N'] n, kv ['T'] t,
            kv ['R'] r]) = .error (.missingKey .S)) ∧
    (Encoder.decode ('A' :: ENCODER_SECTION_DELIMITER ::
        join_with SLACK_INFO_DELIMITER
          [kv ['E'] "Execute".data, kv ['W'] w, kv ['T'] t, kv ['Y'] y]) =
      .error (.missingKey .N)) ∧
    (Encoder.decode ('A' :: ENCODER_SECTION_DELIMITER ::
        join_with SLACK_INFO_DELIMITER
          [kv ['E'] "Execute".data, kv ['W'] w, kv ['N'] n, kv ['Y'] y]) =
      .error (.missingKey .T)) ∧
    (Encoder.decode ('A' :: ENCODER_SECTION_DELIMITER ::
        join_with SLACK_INFO_DELIMITER
          [kv ['E'] "Execute".data, kv ['W'] w, kv ['N'] n, kv ['T'] t]) =
      .error (.missingKey .Y)) ∧
    (Encoder.decode ('A' :: ENCODER_SECTION_DELIMITER ::
        join_with SLACK_INFO_DELIMITER
          [kv ['E'] "Query".data, kv ['W'] w, kv ['T'] t, kv ['R'] r,
            kv ['Q'] q]) = .error (.missingKey .N)) ∧
    (Encoder.decode ('A' :: ENCODER_SECTION_DELIMITER ::
        join_with SLACK_INFO_DELIMITER
          [kv ['E'] "Query".data, kv ['W'] w, kv ['N'] n, kv ['R'] r,
            kv ['Q'] q]) = .error (.missingKey .T)) ∧
    (Encoder.decode ('A' :: ENCODER_SECTION_DELIMITER ::
        join_with SLACK_INFO_DELIMITER
          [kv ['E'] "Query".data, kv ['W'] w, kv ['N'] n, kv ['T'] t,
            kv ['R'] r]) = .error (.missingKey .Q)) := by
  refine ⟨?_, ?_, ?_, ?_, ?_, ?_, ?_, ?_, ?_⟩
  · refine (decode_A_join _ (by simp) ?_).trans ?_
    · intro x hx
      simp only [List.mem_cons, List.not_mem_nil, or_false] at hx
      rcases hx with rfl | rfl | rfl | rfl | rfl
      · exact kv_delims (by decide) (by decide)
      · exact kv_delims (by decide) hw
      · exact kv_delims (by decide) ht
      · exact kv_delims (by decide) hr
      · exact kv_delims (by decide) hs
    · rfl
  · refine (decode_A_join _ (by simp) ?_).trans ?_
    · intro x hx
      simp only [List.mem_cons, List.not_mem_nil, or_false] at hx
      rcases hx with rfl | rfl | rfl | rfl | rfl
      · exact kv_delims (by decide) (by decide)
      · exact kv_delims (by decide) hw
      · exact kv_delims (by decide) hn
      · exact kv_delims (by decide) hr
      · exact kv_delims (by decide) hs
    · rfl
  · refine (decode_A_join _ (by simp) ?_).trans ?_
    · intro x hx
      simp only [List.mem_cons, List.not_mem_nil, or_false] at hx
      rcases hx with rfl | rfl | rfl | rfl | rfl
      · exact kv_delims (by decide) (by decide)
      · exact kv_delims (by decide) hw
      · exact kv_delims (by decide) hn
      · exact kv_delims (by decide) ht
      · exact kv_delims (by decide) hr
    · rfl
  · refine (decode_A_join _ (by simp) ?_).trans ?_
    · intro x hx
      simp only [List.mem_cons, List.not_mem_nil, or_false] at hx
      rcases hx with rfl | rfl | rfl | rfl
      · exact kv_delims (by decide) (by decide)
      · exact kv_delims (by decide) hw
      · exact kv_delims (by decide) ht
      · exact kv_delims (by decide) hy
    · rfl
  · refine (decode_A_join _ (by simp) ?_).trans ?_
    · intro x hx
      simp only [List.mem_cons, List.not_mem_nil, or_false] at hx
      rcases hx with rfl | rfl | rfl | rfl
      · exact kv_delims (by decide) (by decide)
      · exact kv_delims (by decide) hw
      · exact kv_delims (by decide) hn
      · exact kv_delims (by decide) hy
    · rfl
  · refine (decode_A_join _ (by simp) ?_).trans ?_
    · intro x hx
      simp only [List.mem_cons, List.not_mem_nil, or_false] at hx
      rcases hx with rfl | rfl | rfl | rfl
      · exact kv_delims (by decide) (by decide)
      · exact kv_delims (by decide) hw
      · exact kv_delims (by decide) hn
      · exact kv_delims (by decide) ht
    · rfl
  · refine (decode_A_join _ (by simp) ?_).trans ?_
    · intro x hx
      simp only [List.mem_cons, List.not_mem_nil, or_false] at hx
      rcases hx with rfl | rfl | rfl | rfl | rfl
      · exact kv_delims (by decide) (by decide)
      · exact kv_delims (by decide) hw
      · exact kv_delims (by decide) ht
      · exact kv_delims (by decide) hr
      · exact kv_delims (by decide) hq
    · rfl
  · refine (decode_A_join _ (by simp) ?_).trans ?_
    · intro x hx
      simp only [List.mem_cons, List.not_mem_nil, or_false] at hx
      rcases hx with rfl | rfl | rfl | rfl | rfl
      · exact kv_delims (by decide) (by decide)
      · exact kv_delims (by decide) hw
      · exact kv_delims (by decide) hn
      · exact kv_delims (by decide) hr
      · exact kv_delims (by decide) hq
    · rfl
  · refine (decode_A_join _ (by simp) ?_).trans ?_
    · intro x hx
      simp only [List.mem_cons, List.not_mem_nil, or_false] at hx
      rcases hx with rfl | rfl | rfl | rfl | rfl
      · exact kv_delims (by decide) (by decide)
      · exact kv_delims (by decide) hw
      · exact kv_delims (by decide) hn
      · exact kv_delims (by decide) ht
      · exact kv_delims (by decide) hr
    · rfl

/-- Witness for claim C5 at concrete field values. -/
theorem claim_C5_required_field_enforcement_witness :
    delimFree "wf-1".data ∧
    Encoder.decode ('A' :: ENCODER_SECTION_DELIMITER ::
      join_with SLACK_INFO_DELIMITER
        [kv ['E'] "Signal".data, kv ['W'] "wf-1".data, kv ['T'] "tq-1".data,
          kv ['R'] "run-1".data, kv ['S'] "sig-1".data]) =
      .error (.missingKey .N) :=
  ⟨by decide,
    (claim_C5_required_field_enforcement "wf-1".data "ns-1".data "tq-1".data
      "run-1".data "sig-1".data "wft-1".data "qt-1".data (by decide)
      (by decide) (by decide) (by decide) (by decide) (by decide)
      (by decide)).1⟩

/-- Claim C6: a version-A Signal string carrying the required pairs
(`E`, `N`, `T`, `S`) but no `W` and no `R` pair decodes successfully to a
Signal command with `workflow_id` and `run_id` absent. -/
theorem claim_C6_optional_field_defaulting
    (n t s : Str) (hn : delimFree n) (ht : delimFree t) (hs : delimFree s) :
    Encoder.decode ('A' :: ENCODER_SECTION_DELIMITER ::
      join_with SLACK_INFO_DELIMITER
        [kv ['E'] "Signal".data, kv ['N'] n, kv ['T'] t, kv ['S'] s]) =
    .ok (.Signal { namespace_ := n, task_queue := t, workflow_id := none,
                   run_id := none, signal_name := s, input := none,
                   identity := none, request_id := none, control := none }) := by
  refine (decode_A_join _ (by simp) ?_).trans ?_
  · intro x hx
    simp only [List.mem_cons, List.not_mem_nil, or_false] at hx
    rcases hx with rfl | rfl | rfl | rfl
    · exact kv_delims (by decide) (by decide)
    · exact kv_delims (by decide) hn
    · exact kv_delims (by decide) ht
    · exact kv_delims (by decide) hs
  · rfl

/-- Witness for claim C6 at concrete field values. -/
theorem claim_C6_optional_field_defaulting_witness :
    delimFree "my-ns".data ∧
    Encoder.decode ('A' :: ENCODER_SECTION_DELIMITER ::
      join_with SLACK_INFO_DELIMITER
        [kv ['E'] "Signal".data, kv ['N'] "my-ns".data, kv ['T'] "my-tq".data,
          kv ['S'] "my-sig".data]) =
    .ok (.Signal { namespace_ := "my-ns".data, task_queue := "my-tq".data,
                   workflow_id := none, run_id := none,
                   signal_name := "my-sig".data, input := none,
                   identity := none, request_id := none, control := none }) :=
  ⟨by decide,
    claim_C6_optional_field_defaulting "my-ns".data "my-tq".data
      "my-sig".data (by decide) (by decide) (by decide)⟩

/-- Claim C7: decoding any string that contains no section delimiter `~`
fails with the malformed-version error (and only that error). -/
theorem claim_C7_no_delimiter_malformed_version
    (s : Str) (h : ENCODER_SECTION_DELIMITER ∉ s) :
    Encoder.decode s = .error .malformedVersion := by
  simp [Encoder.decode, Encoder.from_encoded_str, split_once_not_mem _ _ h]

/-- Witness for claim C7 on a concrete delimiter-free string. -/
theorem claim_C7_no_delimiter_malformed_version_witness :
    ENCODER_SECTION_DELIMITER ∉ "AE:Signal,W:wf,N:ns,T:tq,S:sig".data ∧
    Encoder.decode "AE:Signal,W:wf,N:ns,T:tq,S:sig".data =
      .error .malformedVersion :=
  ⟨by decide,
    claim_C7_no_delimiter_malformed_version
      "AE:Signal,W:wf,N:ns,T:tq,S:sig".data (by decide)⟩

/-- Claim C8: `encode` is total and infallible: for every version and every
command value (any variant, any combination of optional fields, any field
strings) it returns a string — of the documented shape, the version tag
followed by the section delimiter and a non-empty comma-joined pair list.
Purity (no side effects) holds by construction in this embedding: `encode`
is a pure function of its arguments. -/
theorem claim_C8_encode_total :
    ∀ (v : Encoder) (c : TemporalInteraction), ∃ pairs : List Str,
      pairs ≠ [] ∧ Encoder.encode v c =
        v.toStr ++ ENCODER_SECTION_DELIMITER ::
          join_with SLACK_INFO_DELIMITER pairs := by
  intro v c
  cases v
  cases c with
  | Execute a =>
    exact ⟨[kv ['E'] "Execute".data, kv ['W'] a.workflow_id,
      kv ['N'] a.namespace_, kv ['T'] a.task_queue,
      kv ['Y'] a.workflow_type], by simp, rfl⟩
  | Signal a =>
    exact ⟨[kv ['E'] "Signal".data, kv ['W'] (a.workflow_id.getD []),
      kv ['N'] a.namespace_, kv ['T'] a.task_queue, kv ['R'] a.run_id_str,
      kv ['S'] a.signal_name], by simp, rfl⟩
  | Query a =>
    exact ⟨[kv ['E'] "Query".data], by simp, rfl⟩

/-- Claim C9: `add_data_args` returns a command of the same variant in
which exactly the variant-specific argument field (`args` for Execute,
`input` for Signal, `query_args` for Query) is replaced and every other
field is unchanged. -/
theorem claim_C9_add_data_args_frame :
    (∀ (e : ExecuteTemporalWorkflow) (a : Option (List JsonValue)),
      (TemporalInteraction.Execute e).add_data_args a =
        .Execute { e with args := a }) ∧
    (∀ (s : SignalTemporal) (a : Option (List JsonValue)),
      (TemporalInteraction.Signal s).add_data_args a =
        .Signal { s with input := a }) ∧
    (∀ (q : QueryTemporal) (a : Option (List JsonValue)),
      (TemporalInteraction.Query q).add_data_args a =
        .Query { q with query_args := a }) :=
  ⟨fun _ _ => rfl, fun _ _ => rfl, fun _ _ => rfl⟩

/-- Claim C10: encoding a Signal whose `workflow_id` and `run_id` are
absent still emits the `W:` and `R:` pairs, with the empty string as value
(the accessors normalise absence to the empty string); decoding that
encoded string therefore yields `workflow_id = some ""` and
`run_id = some ""`, not absence. -/
theorem claim_C10_signal_empty_id_pairs
    (ns tq sn : Str) (hns : delimFree ns) (htq : delimFree tq)
    (hsn : delimFree sn) :
    Encoder.encode .A (.Signal { namespace_ := ns, task_queue := tq,
                                 workflow_id := none, run_id := none,
                                 signal_name := sn, input := none,
                                 identity := none, request_id := none,
                                 control := none }) =
      'A' :: ENCODER_SECTION_DELIMITER :: join_with SLACK_INFO_DELIMITER
        [kv ['E'] "Signal".data, kv ['W'] [], kv ['N'] ns, kv ['T'] tq,
          kv ['R'] [], kv ['S'] sn] ∧
    Encoder.decode (Encoder.encode .A
      (.Signal { namespace_ := ns, task_queue := tq, workflow_id := none,
                 run_id := none, signal_name := sn, input := none,
                 identity := none, request_id := none, control := none })) =
      .ok (.Signal { namespace_ := ns, task_queue := tq,
                     workflow_id := some [], run_id := some [],
                     signal_name := sn, input := none, identity := none,
                     request_id := none, control := none }) := by
  refine ⟨rfl, ?_⟩
  have henc : Encoder.encode .A
      (.Signal { namespace_ := ns, task_queue := tq, workflow_id := none,
                 run_id := none, signal_name := sn, input := none,
                 identity := none, request_id := none, control := none }) =
      'A' :: ENCODER_SECTION_DELIMITER :: join_with SLACK_INFO_DELIMITER
        [kv ['E'] "Signal".data, kv ['W'] [], kv ['N'] ns, kv ['T'] tq,
          kv ['R'] [], kv ['S'] sn] := rfl
  rw [henc]
  refine (decode_A_join _ (by simp) ?_).trans ?_
  · intro x hx
    simp only [List.mem_cons, List.not_mem_nil, or_false] at hx
    rcases hx with rfl | rfl | rfl | rfl | rfl | rfl
    · exact kv_delims (by decide) (by decide)
    · exact kv_delims (by decide) (by decide)
    · exact kv_delims (by decide) hns
    · exact kv_delims (by decide) htq
    · exact kv_delims (by decide) (by decide)
    · exact kv_delims (by decide) hsn
  · rfl

/-- Witness for claim C10 at concrete field values. -/
theorem claim_C10_signal_empty_id_pairs_witness :
    delimFree "w-ns".data ∧
    Encoder.decode (Encoder.encode .A
      (.Signal { namespace_ := "w-ns".data, task_queue := "w-tq".data,
                 workflow_id := none, run_id := none,
                 signal_name := "w-sig".data, input := none,
                 identity := none, request_id := none, control := none })) =
      .ok (.Signal { namespace_ := "w-ns".data, task_queue := "w-tq".data,
                     workflow_id := some [], run_id := some [],
                     signal_name := "w-sig".data, input := none,
                     identity := none, request_id := none,
                     control := none }) :=
  ⟨by decide,
    (claim_C10_signal_empty_id_pairs "w-ns".data "w-tq".data "w-sig".data
      (by decide) (by decide) (by decide)).2⟩

end TemporalJson
